import Mathlib

/-!
Verification development for the eljef.docker container manager.

The Python sources are shallowly embedded: dynamic Python values become the
inductive `PyVal`; the dynamic `ContainerOpts` record (a `DictObj`, i.e. a
dictionary with a fixed key set) becomes a function from the key enumeration
`COKey` to `PyVal`; raw YAML mappings become association lists; fallible code
returns `Except Err`.  File writes performed by the registries are recorded as
an explicit effect trace.  The external `eljef.core.fops` YAML read/write pair
is modelled as the identity on the mapping (the spec treats file I/O as
faithful plumbing), and `fops.makestr` as decoding bytes to the corresponding
string.
-/

/-- A Python runtime value, restricted to the shapes the validator can meet. -/
inductive PyVal where
  | vstr (s : String)
  | vbytes (s : String)
  | vbool (b : Bool)
  | vint (n : Int)
  | vlist (xs : List PyVal)
  | vnone

/-- Error kinds of eljef.docker.exceptions: ConfigError and DockerError. -/
inductive Err where
  | configError (msg : String)
  | dockerError (msg : String)
deriving DecidableEq

/-- Python type name of a value, as `type(x).__name__` returns it. -/
def pyTypeName : PyVal → String
  | .vstr _ => "str"
  | .vbytes _ => "bytes"
  | .vbool _ => "bool"
  | .vint _ => "int"
  | .vlist _ => "list"
  | .vnone => "NoneType"

/-- Python `isinstance(v, type(o))`, with bool a subclass of int. -/
def pyIsinstance (v o : PyVal) : Bool :=
  match o with
  | .vint _ => (match v with | .vint _ => true | .vbool _ => true | _ => false)
  | _ => pyTypeName v == pyTypeName o

/-- Python `isinstance(v, (bytes, str))`. -/
def pyIsStrOrBytes : PyVal → Bool
  | .vstr _ => true
  | .vbytes _ => true
  | _ => false

/-- Python truth-value test: values that are falsy (`not v`). -/
def pyFalsy : PyVal → Bool
  | .vnone => true
  | .vstr s => s == ""
  | .vbytes s => s == ""
  | .vbool b => !b
  | .vint n => n == 0
  | .vlist xs => xs.isEmpty

/-- Python truthiness (`if v:`). -/
def pyTruthy (v : PyVal) : Bool := !(pyFalsy v)

/-- Modelled external helper `eljef.core.fops.makestr`: bytes decode to the
corresponding string; strings pass through.  Only ever applied to values that
are bytes or str. -/
def makestr : PyVal → PyVal
  | .vbytes s => .vstr s
  | v => v

/-- The string content of a value known to be a string. -/
def pyStr : PyVal → String
  | .vstr s => s
  | _ => ""

/-- The fixed key set of `ContainerOpts.__init__`, in insertion order. -/
inductive COKey where
  | cap_add | cap_drop | devices | dns | environment
  | group | image | image_args | image_insecure
  | image_password | image_username | image_build_path | image_build_squash
  | mounts | name | net | network | ports | restart | tag | tmpfs
deriving DecidableEq, Fintype

/-- Attribute name of each key. -/
def keyName : COKey → String
  | .cap_add => "cap_add"
  | .cap_drop => "cap_drop"
  | .devices => "devices"
  | .dns => "dns"
  | .environment => "environment"
  | .group => "group"
  | .image => "image"
  | .image_args => "image_args"
  | .image_insecure => "image_insecure"
  | .image_password => "image_password"
  | .image_username => "image_username"
  | .image_build_path => "image_build_path"
  | .image_build_squash => "image_build_squash"
  | .mounts => "mounts"
  | .name => "name"
  | .net => "net"
  | .network => "network"
  | .ports => "ports"
  | .restart => "restart"
  | .tag => "tag"
  | .tmpfs => "tmpfs"

/-- `ContainerOpts` is a dictionary-backed record over the fixed key set. -/
abbrev ContainerOpts := COKey → PyVal

/-- Default values set by `ContainerOpts.__init__`. -/
def defaultOpts : ContainerOpts
  | .cap_add => .vlist []
  | .cap_drop => .vlist []
  | .devices => .vlist []
  | .dns => .vlist []
  | .environment => .vlist []
  | .group => .vstr ""
  | .image => .vstr ""
  | .image_args => .vlist []
  | .image_insecure => .vbool false
  | .image_password => .vstr ""
  | .image_username => .vstr ""
  | .image_build_path => .vstr ""
  | .image_build_squash => .vbool false
  | .mounts => .vlist []
  | .name => .vstr ""
  | .net => .vstr ""
  | .network => .vstr ""
  | .ports => .vlist []
  | .restart => .vstr ""
  | .tag => .vstr ""
  | .tmpfs => .vlist []

/-- `validated.keys()` in insertion order. -/
def allKeys : List COKey :=
  [.cap_add, .cap_drop, .devices, .dns, .environment,
   .group, .image, .image_args, .image_insecure,
   .image_password, .image_username, .image_build_path, .image_build_squash,
   .mounts, .name, .net, .network, .ports, .restart, .tag, .tmpfs]

/-- A raw YAML mapping (the file contents handed to the validator). -/
abbrev RawDict := List (String × PyVal)

/-- Dictionary lookup (`key in options` / `options[key]`). -/
def lookupKey (k : String) : RawDict → Option PyVal
  | [] => none
  | p :: rest => if p.1 = k then some p.2 else lookupKey k rest

/-- VALIDATE_TE, already formatted. -/
def fmtTE (key kIs kSb : String) : String :=
  "Incorrect key type: \x27" ++ key ++ "\x27 is \x27" ++ kIs ++
    "\x27 but needs to be \x27" ++ kSb ++ "\x27"

/-- VALIDATE_TE_LIST, already formatted (the missing closing quote after the
key is faithful to the source format string). -/
def fmtTEList (pos : Nat) (key kIs : String) : String :=
  "Incorrect list contents: Value at position \x27" ++ toString pos ++
    "\x27 in key \x27" ++ key ++ " has a type of \x27" ++ kIs ++
    "\x27 when it should be \x27str\x27"

/-- The while-loop of `set_with_type` over list elements: first element that
is neither bytes nor str, with its index and type name. -/
def checkListElems : List PyVal → Nat → Option (Nat × String)
  | [], _ => none
  | x :: rest, i =>
    if pyIsStrOrBytes x then checkListElems rest (i + 1)
    else some (i, pyTypeName x)

/-- `None if value == '' else value` (only the empty str equals `''`). -/
def noneIfEmptyStr : PyVal → PyVal
  | .vstr s => if s = "" then .vnone else .vstr s
  | v => v

/-- The value-level body of `ContainerOpts.set_with_type`: type-check `v`
against the current value `o`, check list elements, and produce the stored
value. -/
def checkedValue (kname : String) (o v : PyVal) : Except Err PyVal :=
  if pyIsinstance v o then
    match v with
    | .vlist xs =>
      match checkListElems xs 0 with
      | some (i, tn) => .error (.configError (fmtTEList i kname tn))
      | none => .ok (noneIfEmptyStr (.vlist xs))
    | _ => .ok (noneIfEmptyStr v)
  else .error (.configError (fmtTE kname (pyTypeName v) (pyTypeName o)))

/-- `ContainerOpts.set_with_type`. -/
def set_with_type (r : ContainerOpts) (k : COKey) (v : PyVal) :
    Except Err ContainerOpts :=
  (checkedValue (keyName k) (r k) v).map (fun w => Function.update r k w)

/-- The conversion applied before `set_with_type` in the validation loop:
`if isinstance(data, (bytes, str)): data = fops.makestr(data)`. -/
def preConv (data : PyVal) : PyVal :=
  if pyIsStrOrBytes data then makestr data else data

/-- One iteration of the validation loop (`for key in validated.keys()`). -/
def validateStep (options : RawDict) (r : ContainerOpts) (k : COKey) :
    Except Err ContainerOpts :=
  match lookupKey (keyName k) options with
  | some data => set_with_type r k (preConv data)
  | none => .ok r

/-- The validation loop over all keys, starting from the defaults. -/
def validateLoop (options : RawDict) : Except Err ContainerOpts :=
  allKeys.foldlM (validateStep options) defaultOpts

/-- Message raised when `image` is unset. -/
def msgNoImage : String := "\x27image\x27 not defined in container options."

/-- Message raised when `name` is unset. -/
def msgNoName : String := "\x27name\x27 not defined in container options."

/-- `DockerContainers.validate_container_options`. -/
def validate (options : RawDict) : Except Err ContainerOpts :=
  match validateLoop options with
  | .error e => .error e
  | .ok v =>
    if pyFalsy (v COKey.image) then .error (.configError msgNoImage)
    else if pyFalsy (v COKey.name) then .error (.configError msgNoName)
    else .ok v

/-- `DictObj.to_dict` of a `ContainerOpts`: all keys in insertion order. -/
def toDict (r : ContainerOpts) : RawDict :=
  allKeys.map (fun k => (keyName k, r k))

/-- The key set normalized by `_save_container_file`. -/
def normKeys : List String :=
  ["group", "image_password", "image_username", "image_build_path",
   "net", "network", "restart", "tag"]

/-- Recognizer for the Python `None` value. -/
def isNoneVal : PyVal → Bool
  | .vnone => true
  | _ => false

/-- `_save_container_file`'s normalization of the out-dict: for the eight
optional string keys, a `None` value is replaced by the empty string. -/
def saveNorm (d : RawDict) : RawDict :=
  d.map (fun p =>
    (p.1, if normKeys.contains p.1 && isNoneVal p.2 then PyVal.vstr "" else p.2))

/-- The value a field holds in the written file. -/
def normField (k : COKey) (v : PyVal) : PyVal :=
  if normKeys.contains (keyName k) && isNoneVal v then .vstr "" else v

/-- Writing a validated record with `_save_container_file` and reading it back
through `DockerContainers.get` (which re-reads the YAML mapping and
re-validates it).  YAML write/read is modelled as the identity. -/
def roundTrip (r : ContainerOpts) : Except Err ContainerOpts :=
  validate (saveNorm (toDict r))

/-- The outcome the loop assigns to one key: the default when the key is
absent from the mapping, otherwise the checked converted value. -/
def fieldOutcome (options : RawDict) (k : COKey) : Except Err PyVal :=
  match lookupKey (keyName k) options with
  | none => .ok (defaultOpts k)
  | some data => checkedValue (keyName k) (defaultOpts k) (preConv data)

section LoopLemmas

lemma exbind_ok {α β : Type} (a : α) (f : α → Except Err β) :
    (Except.ok a >>= f) = f a := rfl

lemma exbind_err {α β : Type} (e : Err) (f : α → Except Err β) :
    ((Except.error e : Except Err α) >>= f) = .error e := rfl

lemma allKeys_complete : ∀ k : COKey, k ∈ allKeys := by
  intro k; cases k <;> simp [allKeys]

lemma allKeys_nodup : allKeys.Nodup := by decide

lemma expure {α : Type} (a : α) : (pure a : Except Err α) = .ok a := rfl

lemma checkedValue_ok_inv {kname : String} {o v w : PyVal}
    (h : checkedValue kname o v = .ok w) : w = noneIfEmptyStr v := by
  unfold checkedValue at h
  split at h
  · cases v with
    | vlist xs =>
      rcases hc : checkListElems xs 0 with _ | p
      · simp only [hc] at h
        exact (Except.ok.inj h).symm
      · cases p
        simp only [hc] at h
        exact Except.noConfusion h
    | vstr s => exact (Except.ok.inj h).symm
    | vbytes s => exact (Except.ok.inj h).symm
    | vbool b => exact (Except.ok.inj h).symm
    | vint n => exact (Except.ok.inj h).symm
    | vnone => exact (Except.ok.inj h).symm
  · exact Except.noConfusion h

/-- Processing the key list from an accumulator that is still default on every
listed key: success determines each field by its `fieldOutcome`, and leaves
unlisted keys untouched. -/
lemma loop_fwd (options : RawDict) :
    ∀ (ks : List COKey) (a r : ContainerOpts),
      (∀ k ∈ ks, a k = defaultOpts k) → ks.Nodup →
      ks.foldlM (validateStep options) a = .ok r →
      (∀ k ∈ ks, fieldOutcome options k = .ok (r k)) ∧
      (∀ k, k ∉ ks → r k = a k) := by
  intro ks
  induction ks with
  | nil =>
    intro a r _ _ h
    rw [List.foldlM_nil, expure] at h
    have h' : a = r := Except.ok.inj h
    subst h'
    exact ⟨by simp, fun k _ => rfl⟩
  | cons k ks ih =>
    intro a r hdef hnd h
    rw [List.foldlM_cons] at h
    have hak : a k = defaultOpts k := hdef k (by simp)
    have hnd' : ks.Nodup := (List.nodup_cons.mp hnd).2
    have hkks : k ∉ ks := (List.nodup_cons.mp hnd).1
    rcases hl : lookupKey (keyName k) options with _ | data
    · -- key absent: accumulator unchanged
      have hstep : validateStep options a k = .ok a := by
        simp [validateStep, hl]
      rw [hstep, exbind_ok] at h
      obtain ⟨h1, h2⟩ := ih a r (fun k' hk' => hdef k' (by simp [hk'])) hnd' h
      refine ⟨?_, ?_⟩
      · intro k' hk'
        rcases List.mem_cons.mp hk' with rfl | hk'
        · have : r k' = a k' := h2 k' hkks
          simp [fieldOutcome, hl, this, hak]
        · exact h1 k' hk'
      · intro k' hk'
        exact h2 k' (fun hh => hk' (by simp [hh]))
    · -- key present: checked value stored
      rcases hc : checkedValue (keyName k) (a k) (preConv data) with e | w
      · have hstep : validateStep options a k = .error e := by
          simp [validateStep, hl, set_with_type, hc, Except.map]
        rw [hstep, exbind_err] at h
        exact absurd h (by simp)
      · have hstep : validateStep options a k = .ok (Function.update a k w) := by
          simp [validateStep, hl, set_with_type, hc, Except.map]
        rw [hstep, exbind_ok] at h
        have hdef' : ∀ k' ∈ ks, Function.update a k w k' = defaultOpts k' := by
          intro k' hk'
          have hne : k' ≠ k := fun hh => hkks (hh ▸ hk')
          rw [Function.update_noteq hne]
          exact hdef k' (by simp [hk'])
        obtain ⟨h1, h2⟩ := ih (Function.update a k w) r hdef' hnd' h
        refine ⟨?_, ?_⟩
        · intro k' hk'
          rcases List.mem_cons.mp hk' with rfl | hk'
          · have hr : r k' = Function.update a k' w k' := h2 k' hkks
            rw [Function.update_same] at hr
            rw [hak] at hc
            simp [fieldOutcome, hl, hc, hr]
          · exact h1 k' hk'
        · intro k' hk'
          have hne : k' ≠ k := fun hh => hk' (by simp [hh])
          rw [h2 k' (fun hh => hk' (by simp [hh])), Function.update_noteq hne]

/-- If every listed key's `fieldOutcome` succeeds, the loop succeeds. -/
lemma loop_ok (options : RawDict) :
    ∀ (ks : List COKey) (a : ContainerOpts),
      (∀ k ∈ ks, a k = defaultOpts k) → ks.Nodup →
      (∀ k ∈ ks, ∃ w, fieldOutcome options k = .ok w) →
      ∃ r, ks.foldlM (validateStep options) a = .ok r := by
  intro ks
  induction ks with
  | nil =>
    intro a _ _ _
    refine ⟨a, ?_⟩
    rw [List.foldlM_nil, expure]
  | cons k ks ih =>
    intro a hdef hnd hok
    rw [List.foldlM_cons]
    have hak : a k = defaultOpts k := hdef k (by simp)
    have hnd' : ks.Nodup := (List.nodup_cons.mp hnd).2
    have hkks : k ∉ ks := (List.nodup_cons.mp hnd).1
    rcases hl : lookupKey (keyName k) options with _ | data
    · have hstep : validateStep options a k = .ok a := by
        simp [validateStep, hl]
      rw [hstep, exbind_ok]
      exact ih a (fun k' hk' => hdef k' (by simp [hk'])) hnd'
        (fun k' hk' => hok k' (by simp [hk']))
    · obtain ⟨w, hw⟩ := hok k (by simp)
      simp only [fieldOutcome, hl] at hw
      have hstep : validateStep options a k = .ok (Function.update a k w) := by
        simp [validateStep, hl, set_with_type, hak, hw, Except.map]
      rw [hstep, exbind_ok]
      refine ih (Function.update a k w) ?_ hnd'
        (fun k' hk' => hok k' (by simp [hk']))
      intro k' hk'
      have hne : k' ≠ k := fun hh => hkks (hh ▸ hk')
      rw [Function.update_noteq hne]
      exact hdef k' (by simp [hk'])

/-- Characterization of the validation loop. -/
lemma validateLoop_ok_iff (options : RawDict) (r : ContainerOpts) :
    validateLoop options = .ok r ↔
      ∀ k, fieldOutcome options k = .ok (r k) := by
  constructor
  · intro h k
    have := (loop_fwd options allKeys defaultOpts r (fun _ _ => rfl)
      allKeys_nodup h).1
    exact this k (allKeys_complete k)
  · intro h
    obtain ⟨r', hr'⟩ := loop_ok options allKeys defaultOpts (fun _ _ => rfl)
      allKeys_nodup (fun k _ => ⟨r k, h k⟩)
    have h1 := (loop_fwd options allKeys defaultOpts r' (fun _ _ => rfl)
      allKeys_nodup hr').1
    have : r' = r := by
      funext k
      have ha := h1 k (allKeys_complete k)
      have hb := h k
      rw [ha] at hb
      exact Except.ok.inj hb
    rw [validateLoop, hr', this]

/-- Characterization of full validation. -/
lemma validate_ok_iff (options : RawDict) (r : ContainerOpts) :
    validate options = .ok r ↔
      validateLoop options = .ok r ∧
      pyFalsy (r COKey.image) = false ∧ pyFalsy (r COKey.name) = false := by
  rcases h : validateLoop options with e | v
  · simp [validate, h]
  · simp only [validate, h]
    constructor
    · intro hv
      by_cases h1 : pyFalsy (v COKey.image) = true
      · rw [if_pos h1] at hv
        exact Except.noConfusion hv
      · rw [if_neg h1] at hv
        by_cases h2 : pyFalsy (v COKey.name) = true
        · rw [if_pos h2] at hv
          exact Except.noConfusion hv
        · rw [if_neg h2] at hv
          have hvr : v = r := Except.ok.inj hv
          subst hvr
          exact ⟨rfl, by simpa using h1, by simpa using h2⟩
    · rintro ⟨h1, h2, h3⟩
      have hvr : v = r := Except.ok.inj h1
      subst hvr
      rw [if_neg (by simp [h2]), if_neg (by simp [h3])]

end LoopLemmas

/-! ## Group data and orchestration (eljef/docker/group.py, cli/__group__.py) -/

/-- `DockerGroup`: master and members.  `__init__` only stores a truthy
master, so an absent or empty master is `none`. -/
structure DockerGroupM where
  master : Option String
  members : List String
deriving DecidableEq

/-- A container operation issued to the engine. -/
inductive COp where
  | start (n : String)
  | stop (n : String)
  | remove (n : String)
  | pull (n : String)
deriving DecidableEq

/-- `_group_list`: the master's handle (when the group has a truthy master)
and the handles of all members other than the master, in listing order.
Handles are identified by container name. -/
def group_list (g : DockerGroupM) : Option String × List String :=
  (match g.master with
   | some m => if m ≠ "" then some m else none
   | none => none,
   g.members.filter (fun c => decide (some c ≠ g.master)))

/-- `_group_start`: start the master first when present, then each remaining
container in order. -/
def group_start (master : Option String) (containers : List String) :
    List COp :=
  (match master with | some m => [COp.start m] | none => []) ++
    containers.map COp.start

/-- `_group_stop`: stop (and optionally remove) each non-master container in
order, then the master. -/
def group_stop (master : Option String) (containers : List String)
    (remove : Bool) : List COp :=
  (containers.map
      (fun c => [COp.stop c] ++ (if remove then [COp.remove c] else []))).flatten
    ++ (match master with
        | some m => [COp.stop m] ++ (if remove then [COp.remove m] else [])
        | none => [])

/-! ## Mount translation (_CommandDict.mounts) -/

/-- A `docker.types.services.Mount` as built by `_CommandDict.mounts`. -/
structure MountM where
  target : String
  source : String
  ty : String
  read_only : Bool
  propagation : String
deriving DecidableEq

/-- Number of `:` characters in a string (`vol.count(":")`). -/
def colonCount (s : String) : Nat :=
  (s.toList.filter (fun c => c = ':')).length

/-- Helper for `splitColon`: split a character list on `:`. -/
def splitColonAux : List Char → List Char → List String
  | [], acc => [String.mk acc.reverse]
  | c :: rest, acc =>
    if c = ':' then String.mk acc.reverse :: splitColonAux rest []
    else splitColonAux rest (c :: acc)

/-- Python `vol.split(":")`. -/
def splitColon (s : String) : List String := splitColonAux s.toList []

/-- One iteration of the `for vol in self.options.mounts` loop. -/
def mountOf (vol : String) : Except Err MountM :=
  if colonCount vol = 1 then
    let parts := splitColon vol
    .ok ⟨parts.getD 1 "", parts.getD 0 "", "bind", false, "slave"⟩
  else if colonCount vol = 2 then
    let parts := splitColon vol
    .ok ⟨parts.getD 1 "", parts.getD 0 "", "bind",
         parts.getD 2 "" == "ro", "slave"⟩
  else .error (.configError ("Malformed Path: " ++ vol))

/-- The volume list `_CommandDict.mounts` accumulates, aborting at the first
malformed entry. -/
def buildMounts : List String → Except Err (List MountM)
  | [] => .ok []
  | v :: rest =>
    match mountOf v with
    | .error e => .error e
    | .ok m => (buildMounts rest).map (fun ms => m :: ms)

/-- The `mounts` keyword argument: skipped entirely when the option list is
empty. -/
def mountsKw (mounts : List String) : Except Err (Option (List MountM)) :=
  if mounts.isEmpty then .ok none else (buildMounts mounts).map some

/-! ## CLI group dispatch (cli/__opts__.py, cli/__group__.py) -/

/-- One argparse option descriptor from `C_LINE_GROUPS`. -/
structure CliOpt where
  flag : String
  dest : String
  metav : Option String
  storeTrue : Bool
deriving DecidableEq

/-- The `group` sub-command's option table (`C_LINE_GROUPS['group']['ops']`). -/
def groupCliOps : List CliOpt :=
  [⟨"--define", "group_define", some "GROUP_NAME", false⟩,
   ⟨"--info", "group_info", some "GROUP_NAME", false⟩,
   ⟨"--set-master", "group_set_master", some "GROUP_NAME,MASTER_NAME", false⟩,
   ⟨"--restart", "group_restart", some "GROUP_NAME", false⟩,
   ⟨"--start", "group_start", some "GROUP_NAME", false⟩,
   ⟨"--stop", "group_stop", some "GROUP_NAME", false⟩,
   ⟨"--update", "group_update", some "GROUP_NAME", false⟩,
   ⟨"--list", "groups_list", none, true⟩]

/-- The argparse namespace fields the group sub-command produces. -/
structure GroupArgs where
  group_define : Option String
  group_info : Option String
  group_set_master : Option String
  group_restart : Option String
  group_start : Option String
  group_stop : Option String
  group_update : Option String
  groups_list : Bool
deriving DecidableEq

/-- Python truthiness of an optional string argument (absent or empty is
falsy). -/
def optTruthy : Option String → Bool
  | some s => s ≠ ""
  | none => false

/-- The command `do_group` dispatches to; the final branch logs an error and
exits with status 1. -/
inductive GroupCmd where
  | defineG (s : String)
  | infoG (s : String)
  | setMasterG (g m : String)
  | startG (s : String)
  | stopG (s : String)
  | updateG (s : String)
  | listG
  | errNoAction
deriving DecidableEq

/-- `do_group`'s if/elif dispatch over the namespace. -/
def do_group (args : GroupArgs) : GroupCmd :=
  if optTruthy args.group_define then .defineG (args.group_define.getD "")
  else if optTruthy args.group_info then .infoG (args.group_info.getD "")
  else if optTruthy args.group_set_master then
    let parts := (args.group_set_master.getD "").splitOn ","
    .setMasterG (parts.getD 0 "") (parts.getD 1 "")
  else if optTruthy args.group_start then .startG (args.group_start.getD "")
  else if optTruthy args.group_stop then .stopG (args.group_stop.getD "")
  else if optTruthy args.group_update then .updateG (args.group_update.getD "")
  else if args.groups_list then .listG
  else .errNoAction

/-- Association list of defined groups (`DockerGroups.__groups`). -/
abbrev GroupsState := List (String × DockerGroupM)

/-- Group lookup by name. -/
def lookupG (n : String) : GroupsState → Option DockerGroupM
  | [] => none
  | p :: rest => if p.1 = n then some p.2 else lookupG n rest

/-- The per-container engine operations each dispatched group command issues.
`start`/`stop` resolve the group and drive the fixed sequences; `update`
pulls images for master then members, stops-and-removes everything, then
starts everything; the remaining commands touch no container. -/
def cmdOps (gs : GroupsState) : GroupCmd → List COp
  | .startG g =>
    match lookupG g gs with
    | some grp => group_start (group_list grp).1 (group_list grp).2
    | none => []
  | .stopG g =>
    match lookupG g gs with
    | some grp => group_stop (group_list grp).1 (group_list grp).2 false
    | none => []
  | .updateG g =>
    match lookupG g gs with
    | some grp =>
      let m := (group_list grp).1
      let cs := (group_list grp).2
      (match m with | some n => [COp.pull n] | none => []) ++ cs.map COp.pull
        ++ group_stop m cs true ++ group_start m cs
    | none => []
  | _ => []

/-! ## Container registry define (DockerContainers.define) -/

/-- A file write the registry performs. -/
inductive Effect where
  | writeGroupsFile (gs : GroupsState)
  | writeContainerFile (nm path : String) (contents : RawDict)

/-- Registry state: the in-memory name-to-path index, and the group registry
when one was supplied at construction. -/
structure RegState where
  containers : List (String × String)
  groups : Option GroupsState

/-- Outcome of `define`: the returned name or raised error, the registry
state after the call, and the file writes in the order they happened. -/
structure DefineOut where
  result : Except Err String
  state : RegState
  effects : List Effect

/-- Replace one group's record. -/
def setG (n : String) (g : DockerGroupM) (gs : GroupsState) : GroupsState :=
  gs.map (fun p => if p.1 = n then (n, g) else p)

/-- The group cross-check and auto-append step of `define`: fails when the
declared group is unknown; appends the container to the group's members and
saves the group file when it is not yet a member. -/
def defineGroupStep (st : RegState) (nm : String) (c : ContainerOpts) :
    Except Err (RegState × List Effect) :=
  match st.groups with
  | none => .ok (st, [])
  | some gs =>
    if pyTruthy (c COKey.group) then
      let gname := pyStr (c COKey.group)
      match lookupG gname gs with
      | none =>
        .error (.configError ("Container definition for \x27" ++ nm ++
          "\x27 contains group that is not defined. Add group first."))
      | some g =>
        if g.members.contains nm then .ok (st, [])
        else
          let gs2 := setG gname ⟨g.master, g.members ++ [nm]⟩ gs
          .ok (⟨st.containers, some gs2⟩, [.writeGroupsFile gs2])
    else .ok (st, [])

/-- The tail of `define`: record the name-to-path entry and write the
container's own definition file (via `_save_container_file`). -/
def defineFinish (cfg : String) (st : RegState) (nm : String)
    (c : ContainerOpts) (effs : List Effect) : DefineOut :=
  let path := cfg ++ "/" ++ nm ++ ".yaml"
  ⟨.ok nm, ⟨st.containers ++ [(nm, path)], st.groups⟩,
   effs ++ [.writeContainerFile nm path (saveNorm (toDict c))]⟩

/-- `DockerContainers.define`, from reading the definition mapping to the
final file write.  `cfg` is the registry's `containers/` directory. -/
def define (cfg : String) (st : RegState) (fileDict : RawDict) : DefineOut :=
  match validate fileDict with
  | .error e => ⟨.error e, st, []⟩
  | .ok c =>
    let nm := pyStr (c COKey.name)
    if (st.containers.map Prod.fst).contains nm then
      ⟨.error (.dockerError ("Container \x27" ++ nm ++
        "\x27 already defined.")), st, []⟩
    else
      match defineGroupStep st nm c with
      | .error e => ⟨.error e, st, []⟩
      | .ok (st1, effs) => defineFinish cfg st1 nm c effs

/-! ## Infrastructure lemmas for the round-trip and validation claims -/

section FieldLemmas

lemma lookup_norm_toDict (r : ContainerOpts) (k : COKey) :
    lookupKey (keyName k) (saveNorm (toDict r)) = some (normField k (r k)) := by
  cases k <;> rfl

lemma stable_norm_str (kn : String) (v w : PyVal)
    (h : checkedValue kn (.vstr "") (preConv v) = .ok w) :
    checkedValue kn (.vstr "")
      (preConv (if isNoneVal w then .vstr "" else w)) = .ok w := by
  rcases v with s | s | b | n | xs | _
  · simp only [preConv, pyIsStrOrBytes, makestr, if_pos] at h ⊢
    simp only [checkedValue, pyIsinstance, pyTypeName] at h ⊢
    simp only [noneIfEmptyStr] at h
    by_cases hs : s = ""
    · rw [if_pos hs] at h
      have hw : w = .vnone := (Except.ok.inj h).symm
      subst hw
      simp [isNoneVal, noneIfEmptyStr]
    · rw [if_neg hs] at h
      have hw : w = .vstr s := (Except.ok.inj h).symm
      subst hw
      simp [isNoneVal, noneIfEmptyStr, hs]
  · simp only [preConv, pyIsStrOrBytes, makestr, if_pos] at h ⊢
    simp only [checkedValue, pyIsinstance, pyTypeName] at h ⊢
    simp only [noneIfEmptyStr] at h
    by_cases hs : s = ""
    · rw [if_pos hs] at h
      have hw : w = .vnone := (Except.ok.inj h).symm
      subst hw
      simp [isNoneVal, noneIfEmptyStr]
    · rw [if_neg hs] at h
      have hw : w = .vstr s := (Except.ok.inj h).symm
      subst hw
      simp [isNoneVal, noneIfEmptyStr, hs]
  · exact absurd h (by simp [checkedValue, preConv, pyIsStrOrBytes,
      pyIsinstance, pyTypeName])
  · exact absurd h (by simp [checkedValue, preConv, pyIsStrOrBytes,
      pyIsinstance, pyTypeName])
  · exact absurd h (by simp [checkedValue, preConv, pyIsStrOrBytes,
      pyIsinstance, pyTypeName])
  · exact absurd h (by simp [checkedValue, preConv, pyIsStrOrBytes,
      pyIsinstance, pyTypeName])

lemma stable_req_str (kn : String) (v w : PyVal)
    (h : checkedValue kn (.vstr "") (preConv v) = .ok w) (hn : w ≠ .vnone) :
    checkedValue kn (.vstr "") (preConv w) = .ok w := by
  rcases v with s | s | b | n | xs | _
  · simp only [preConv, pyIsStrOrBytes, makestr, if_pos] at h
    simp only [checkedValue, pyIsinstance, pyTypeName, noneIfEmptyStr] at h
    by_cases hs : s = ""
    · rw [if_pos hs] at h
      exact absurd (Except.ok.inj h).symm hn
    · rw [if_neg hs] at h
      have hw : w = .vstr s := (Except.ok.inj h).symm
      subst hw
      simp [checkedValue, preConv, pyIsStrOrBytes, makestr, pyIsinstance,
        pyTypeName, noneIfEmptyStr, hs]
  · simp only [preConv, pyIsStrOrBytes, makestr, if_pos] at h
    simp only [checkedValue, pyIsinstance, pyTypeName, noneIfEmptyStr] at h
    by_cases hs : s = ""
    · rw [if_pos hs] at h
      exact absurd (Except.ok.inj h).symm hn
    · rw [if_neg hs] at h
      have hw : w = .vstr s := (Except.ok.inj h).symm
      subst hw
      simp [checkedValue, preConv, pyIsStrOrBytes, makestr, pyIsinstance,
        pyTypeName, noneIfEmptyStr, hs]
  · exact absurd h (by simp [checkedValue, preConv, pyIsStrOrBytes,
      pyIsinstance, pyTypeName])
  · exact absurd h (by simp [checkedValue, preConv, pyIsStrOrBytes,
      pyIsinstance, pyTypeName])
  · exact absurd h (by simp [checkedValue, preConv, pyIsStrOrBytes,
      pyIsinstance, pyTypeName])
  · exact absurd h (by simp [checkedValue, preConv, pyIsStrOrBytes,
      pyIsinstance, pyTypeName])

lemma stable_vlist (kn : String) (v w : PyVal)
    (h : checkedValue kn (.vlist []) (preConv v) = .ok w) :
    checkedValue kn (.vlist []) (preConv w) = .ok w := by
  rcases v with s | s | b | n | xs | _
  · exact absurd h (by simp [checkedValue, preConv, pyIsStrOrBytes, makestr,
      pyIsinstance, pyTypeName])
  · exact absurd h (by simp [checkedValue, preConv, pyIsStrOrBytes, makestr,
      pyIsinstance, pyTypeName])
  · exact absurd h (by simp [checkedValue, preConv, pyIsStrOrBytes,
      pyIsinstance, pyTypeName])
  · exact absurd h (by simp [checkedValue, preConv, pyIsStrOrBytes,
      pyIsinstance, pyTypeName])
  · have hpre : preConv (PyVal.vlist xs) = .vlist xs := by
      simp [preConv, pyIsStrOrBytes]
    rw [hpre] at h
    have hw : w = noneIfEmptyStr (.vlist xs) := checkedValue_ok_inv h
    simp only [noneIfEmptyStr] at hw
    subst hw
    rw [hpre]
    exact h
  · exact absurd h (by simp [checkedValue, preConv, pyIsStrOrBytes,
      pyIsinstance, pyTypeName])

lemma stable_vbool (kn : String) (v w : PyVal)
    (h : checkedValue kn (.vbool false) (preConv v) = .ok w) :
    checkedValue kn (.vbool false) (preConv w) = .ok w := by
  rcases v with s | s | b | n | xs | _
  · exact absurd h (by simp [checkedValue, preConv, pyIsStrOrBytes, makestr,
      pyIsinstance, pyTypeName])
  · exact absurd h (by simp [checkedValue, preConv, pyIsStrOrBytes, makestr,
      pyIsinstance, pyTypeName])
  · have hpre : preConv (PyVal.vbool b) = .vbool b := by
      simp [preConv, pyIsStrOrBytes]
    rw [hpre] at h
    have hw : w = noneIfEmptyStr (.vbool b) := checkedValue_ok_inv h
    simp only [noneIfEmptyStr] at hw
    subst hw
    rw [hpre]
    exact h
  · exact absurd h (by simp [checkedValue, preConv, pyIsStrOrBytes,
      pyIsinstance, pyTypeName])
  · exact absurd h (by simp [checkedValue, preConv, pyIsStrOrBytes,
      pyIsinstance, pyTypeName])
  · exact absurd h (by simp [checkedValue, preConv, pyIsStrOrBytes,
      pyIsinstance, pyTypeName])

/-- Re-validating a normalized stored field value reproduces it.  The `image`
and `name` fields are not normalized on write, so stability there needs the
value to be non-`None` (guaranteed by the final validation checks). -/
lemma checkedValue_stable (k : COKey) (v w : PyVal)
    (h : checkedValue (keyName k) (defaultOpts k) (preConv v) = .ok w)
    (him : (k = COKey.image ∨ k = COKey.name) → w ≠ .vnone) :
    checkedValue (keyName k) (defaultOpts k)
      (preConv (normField k w)) = .ok w := by
  cases k with
  | cap_add => exact stable_vlist _ v w h
  | cap_drop => exact stable_vlist _ v w h
  | devices => exact stable_vlist _ v w h
  | dns => exact stable_vlist _ v w h
  | environment => exact stable_vlist _ v w h
  | group => exact stable_norm_str _ v w h
  | image => exact stable_req_str _ v w h (him (Or.inl rfl))
  | image_args => exact stable_vlist _ v w h
  | image_insecure => exact stable_vbool _ v w h
  | image_password => exact stable_norm_str _ v w h
  | image_username => exact stable_norm_str _ v w h
  | image_build_path => exact stable_norm_str _ v w h
  | image_build_squash => exact stable_vbool _ v w h
  | mounts => exact stable_vlist _ v w h
  | name => exact stable_req_str _ v w h (him (Or.inr rfl))
  | net => exact stable_norm_str _ v w h
  | network => exact stable_norm_str _ v w h
  | ports => exact stable_vlist _ v w h
  | restart => exact stable_norm_str _ v w h
  | tag => exact stable_norm_str _ v w h
  | tmpfs => exact stable_vlist _ v w h

end FieldLemmas

/-! ## Claim theorems -/

/-- Claim C1: for a group with master "m" and members ["m","a","b"], the
resolved member sequence excludes the master, the group start operation
issues start calls in the order m, a, b, and the group stop operation issues
stop calls in the order a, b, m. -/
theorem claim_C1_group_order :
    group_list ⟨some "m", ["m", "a", "b"]⟩ = (some "m", ["a", "b"]) ∧
    group_start (group_list ⟨some "m", ["m", "a", "b"]⟩).1
        (group_list ⟨some "m", ["m", "a", "b"]⟩).2 =
      [.start "m", .start "a", .start "b"] ∧
    group_stop (group_list ⟨some "m", ["m", "a", "b"]⟩).1
        (group_list ⟨some "m", ["m", "a", "b"]⟩).2 false =
      [.stop "a", .stop "b", .stop "m"] := by
  refine ⟨rfl, rfl, rfl⟩

/-- Claim C2 counterexample: the entry "/a:/b:/c" contains exactly two
colons, so `_CommandDict.mounts` accepts it (the third segment "/c" is not
"ro", so the bind is read-write) instead of failing with a malformed-path
error as the claim states. -/
theorem claim_C2_counterexample :
    buildMounts ["/a:/b:/c"] =
      .ok [⟨"/b", "/a", "bind", false, "slave"⟩] := rfl

/-- Claim C2 (amended): "/a:/b" maps to a bind of host path /a at container
path /b with mode rw; "/a:/b:ro" maps to the same bind with mode ro; a
three-segment entry whose third segment is not "ro" (such as "/a:/b:/c") is
accepted with mode rw (the third segment is silently ignored); only an entry
whose colon count is neither 1 nor 2 fails with a malformed-path
ConfigError. -/
theorem claim_C2_mounts_translation :
    buildMounts ["/a:/b"] = .ok [⟨"/b", "/a", "bind", false, "slave"⟩] ∧
    buildMounts ["/a:/b:ro"] = .ok [⟨"/b", "/a", "bind", true, "slave"⟩] ∧
    buildMounts ["/a:/b:/c"] = .ok [⟨"/b", "/a", "bind", false, "slave"⟩] ∧
    (∀ v : String, colonCount v ≠ 1 → colonCount v ≠ 2 →
      buildMounts [v] = .error (.configError ("Malformed Path: " ++ v))) := by
  refine ⟨rfl, rfl, rfl, ?_⟩
  intro v h1 h2
  simp [buildMounts, mountOf, h1, h2]

/-- Witness for the amended C2 theorem at the zero-colon entry "ab". -/
theorem claim_C2_mounts_translation_witness :
    buildMounts ["ab"] = .error (.configError ("Malformed Path: " ++ "ab")) :=
  claim_C2_mounts_translation.2.2.2 "ab" (by decide) (by decide)

/-- Claim C9: the group-level --restart option is part of the CLI surface
(dest `group_restart`, metavar GROUP_NAME), but `do_group` never consults it:
with only `group_restart` set the dispatch reaches the error branch, which
issues no start, stop, remove, pull, or any other container operation. -/
theorem claim_C9_group_restart_noop :
    (CliOpt.mk "--restart" "group_restart" (some "GROUP_NAME") false)
        ∈ groupCliOps ∧
    (∀ (s : String) (gs : GroupsState),
      do_group ⟨none, none, none, some s, none, none, none, false⟩ =
          .errNoAction ∧
      cmdOps gs (do_group ⟨none, none, none, some s, none, none, none,
          false⟩) = []) := by
  refine ⟨by simp [groupCliOps], ?_⟩
  intro s gs
  exact ⟨rfl, rfl⟩

/-- Claim C6: defining a container whose name is already registered fails
with an already-defined DockerError, and the registry state after the failed
attempt equals the state before it, with no file written and no group
modified. -/
theorem claim_C6_already_defined (cfg : String) (st : RegState)
    (fd : RawDict) (c : ContainerOpts)
    (hv : validate fd = .ok c)
    (hmem : (st.containers.map Prod.fst).contains (pyStr (c COKey.name)) =
      true) :
    define cfg st fd =
      ⟨.error (.dockerError ("Container \x27" ++ pyStr (c COKey.name) ++
        "\x27 already defined.")), st, []⟩ := by
  simp only [define, hv]
  rw [hmem]
  rfl

/-- Witness for C6 at a registry already holding container "n". -/
theorem claim_C6_already_defined_witness :
    define "/cfg" ⟨[("n", "p")], none⟩
        [("image", .vstr "i"), ("name", .vstr "n")] =
      ⟨.error (.dockerError "Container \x27n\x27 already defined."),
       ⟨[("n", "p")], none⟩, []⟩ := by
  have hv : validate [("image", PyVal.vstr "i"), ("name", PyVal.vstr "n")] =
      .ok (fun k => match k with
        | COKey.image => PyVal.vstr "i"
        | COKey.name => PyVal.vstr "n"
        | k => defaultOpts k) := by
    rw [validate_ok_iff]
    exact ⟨(validateLoop_ok_iff _ _).mpr (fun k => by cases k <;> rfl),
      rfl, rfl⟩
  exact claim_C6_already_defined "/cfg" ⟨[("n", "p")], none⟩ _ _ hv rfl

/-- Claim C7: defining a container whose group names a group absent from the
group registry fails with the undefined-group ConfigError; the registry
state is unchanged and no file (container or group) is written. -/
theorem claim_C7_undefined_group (cfg : String) (st : RegState)
    (gs : GroupsState) (fd : RawDict) (c : ContainerOpts)
    (hv : validate fd = .ok c)
    (hmem : (st.containers.map Prod.fst).contains (pyStr (c COKey.name)) =
      false)
    (hgs : st.groups = some gs)
    (htr : pyTruthy (c COKey.group) = true)
    (hlg : lookupG (pyStr (c COKey.group)) gs = none) :
    define cfg st fd =
      ⟨.error (.configError ("Container definition for \x27" ++
        pyStr (c COKey.name) ++
        "\x27 contains group that is not defined. Add group first.")),
       st, []⟩ := by
  simp only [define, hv]
  rw [hmem]
  simp only [defineGroupStep, hgs]
  rw [htr]
  simp only [hlg]
  rfl

/-- Witness for C7: "n" declares group "g" but the group registry is empty. -/
theorem claim_C7_undefined_group_witness :
    define "/cfg" ⟨[], some []⟩
        [("image", .vstr "i"), ("name", .vstr "n"), ("group", .vstr "g")] =
      ⟨.error (.configError ("Container definition for \x27n\x27 contains " ++
        "group that is not defined. Add group first.")), ⟨[], some []⟩, []⟩ := by
  have hv : validate [("image", PyVal.vstr "i"), ("name", PyVal.vstr "n"),
      ("group", PyVal.vstr "g")] =
      .ok (fun k => match k with
        | COKey.image => PyVal.vstr "i"
        | COKey.name => PyVal.vstr "n"
        | COKey.group => PyVal.vstr "g"
        | k => defaultOpts k) := by
    rw [validate_ok_iff]
    exact ⟨(validateLoop_ok_iff _ _).mpr (fun k => by cases k <;> rfl),
      rfl, rfl⟩
  exact claim_C7_undefined_group "/cfg" ⟨[], some []⟩ [] _ _ hv rfl rfl rfl rfl

/-- Claim C8 counterexample: in a successful define of container "n" into
existing group "g", the effect trace records the group file write first and
the container definition file write second — the reverse of the order the
claim states. -/
theorem claim_C8_counterexample :
    (define "/cfg" ⟨[], some [("g", ⟨none, []⟩)]⟩
        [("image", .vstr "i"), ("name", .vstr "n"),
         ("group", .vstr "g")]).effects =
      [Effect.writeGroupsFile [("g", ⟨none, ["n"]⟩)],
       Effect.writeContainerFile "n" "/cfg/n.yaml"
         [("cap_add", .vlist []), ("cap_drop", .vlist []),
          ("devices", .vlist []), ("dns", .vlist []),
          ("environment", .vlist []), ("group", .vstr "g"),
          ("image", .vstr "i"), ("image_args", .vlist []),
          ("image_insecure", .vbool false), ("image_password", .vstr ""),
          ("image_username", .vstr ""), ("image_build_path", .vstr ""),
          ("image_build_squash", .vbool false), ("mounts", .vlist []),
          ("name", .vstr "n"), ("net", .vstr ""), ("network", .vstr ""),
          ("ports", .vlist []), ("restart", .vstr ""), ("tag", .vstr ""),
          ("tmpfs", .vlist [])]] := rfl

/-- Claim C8 (amended): during a successful define of a container whose
group names an existing group it is not yet a member of, the updated group
file is saved first and the container's own definition file is written
second, so an interruption between the two writes leaves the group already
holding the new member while the container definition file is missing. -/
theorem claim_C8_write_order (cfg : String) (st : RegState)
    (gs : GroupsState) (fd : RawDict) (c : ContainerOpts) (g : DockerGroupM)
    (hv : validate fd = .ok c)
    (hmem : (st.containers.map Prod.fst).contains (pyStr (c COKey.name)) =
      false)
    (hgs : st.groups = some gs)
    (htr : pyTruthy (c COKey.group) = true)
    (hlg : lookupG (pyStr (c COKey.group)) gs = some g)
    (hnm : g.members.contains (pyStr (c COKey.name)) = false) :
    (define cfg st fd).effects =
      [Effect.writeGroupsFile
         (setG (pyStr (c COKey.group))
           ⟨g.master, g.members ++ [pyStr (c COKey.name)]⟩ gs),
       Effect.writeContainerFile (pyStr (c COKey.name))
         (cfg ++ "/" ++ pyStr (c COKey.name) ++ ".yaml")
         (saveNorm (toDict c))] := by
  simp only [define, hv]
  rw [hmem]
  simp only [defineGroupStep, hgs]
  rw [htr]
  simp only [hlg]
  rw [hnm]
  simp [defineFinish]

/-- Witness for the amended C8 theorem: defining "w" into existing group
"h". -/
theorem claim_C8_write_order_witness :
    (define "/c" ⟨[], some [("h", ⟨none, ["x"]⟩)]⟩
        [("image", .vstr "i"), ("name", .vstr "w"),
         ("group", .vstr "h")]).effects =
      [Effect.writeGroupsFile
         (setG "h" ⟨none, ["x", "w"]⟩ [("h", ⟨none, ["x"]⟩)]),
       Effect.writeContainerFile "w" "/c/w.yaml"
         (saveNorm (toDict (fun k => match k with
            | COKey.image => PyVal.vstr "i"
            | COKey.name => PyVal.vstr "w"
            | COKey.group => PyVal.vstr "h"
            | k => defaultOpts k)))] := by
  have hv : validate [("image", PyVal.vstr "i"), ("name", PyVal.vstr "w"),
      ("group", PyVal.vstr "h")] =
      .ok (fun k => match k with
        | COKey.image => PyVal.vstr "i"
        | COKey.name => PyVal.vstr "w"
        | COKey.group => PyVal.vstr "h"
        | k => defaultOpts k) := by
    rw [validate_ok_iff]
    exact ⟨(validateLoop_ok_iff _ _).mpr (fun k => by cases k <;> rfl),
      rfl, rfl⟩
  exact claim_C8_write_order "/c" ⟨[], some [("h", ⟨none, ["x"]⟩)]⟩
    [("h", ⟨none, ["x"]⟩)] _ _ ⟨none, ["x"]⟩ hv rfl rfl rfl rfl rfl

/-! ## Declared-type acceptance and loop characterization helpers -/

/-- A raw value has the field's declared type: its runtime type matches the
default's type, and a sequence value holds only strings (or bytes). -/
def declaredOK (k : COKey) (d : PyVal) : Bool :=
  (pyTypeName d == pyTypeName (defaultOpts k)) &&
    (match d with
     | .vlist xs => xs.all (fun x => pyIsStrOrBytes x)
     | _ => true)

/-- The record the validation loop produces when every present field is
accepted: looked-up values converted and empty-string-normalized, absent
fields left at their defaults. -/
def loopResult (opts : RawDict) : ContainerOpts := fun k =>
  match lookupKey (keyName k) opts with
  | none => defaultOpts k
  | some d => noneIfEmptyStr (preConv d)

lemma checkListElems_none (xs : List PyVal) :
    ∀ i, xs.all (fun x => pyIsStrOrBytes x) = true →
      checkListElems xs i = none := by
  induction xs with
  | nil => intro i _; rfl
  | cons x rest ih =>
    intro i h
    simp only [List.all_cons, Bool.and_eq_true] at h
    simp only [checkListElems, h.1, if_true]
    exact ih (i + 1) h.2

lemma pyIsinstance_of_typeName {v o : PyVal}
    (h : pyTypeName v = pyTypeName o) : pyIsinstance v o = true := by
  cases o <;> cases v <;> simp_all [pyTypeName, pyIsinstance]

lemma defaultOpts_typeName (k : COKey) :
    pyTypeName (defaultOpts k) = "str" ∨ pyTypeName (defaultOpts k) = "list" ∨
      pyTypeName (defaultOpts k) = "bool" := by
  cases k <;> simp [defaultOpts, pyTypeName]

lemma declaredOK_checkedValue (k : COKey) (d : PyVal)
    (h : declaredOK k d = true) :
    checkedValue (keyName k) (defaultOpts k) (preConv d) =
      .ok (noneIfEmptyStr (preConv d)) := by
  simp only [declaredOK, Bool.and_eq_true, beq_iff_eq] at h
  obtain ⟨h1, h2⟩ := h
  rcases d with t | t | b | n | xs | _
  · simp [preConv, pyIsStrOrBytes, makestr, checkedValue,
      pyIsinstance_of_typeName h1]
  · rcases defaultOpts_typeName k with hh | hh | hh <;>
      rw [hh] at h1 <;> exact absurd h1 (by simp [pyTypeName])
  · simp [preConv, pyIsStrOrBytes, checkedValue,
      pyIsinstance_of_typeName h1, noneIfEmptyStr]
  · rcases defaultOpts_typeName k with hh | hh | hh <;>
      rw [hh] at h1 <;> exact absurd h1 (by simp [pyTypeName])
  · simp [preConv, pyIsStrOrBytes, checkedValue,
      pyIsinstance_of_typeName h1, checkListElems_none xs 0 h2,
      noneIfEmptyStr]
  · rcases defaultOpts_typeName k with hh | hh | hh <;>
      rw [hh] at h1 <;> exact absurd h1 (by simp [pyTypeName])

/-- When every present known field is accepted, the loop's per-field
outcomes are the `loopResult` values. -/
lemma loopResult_fieldOutcome (opts : RawDict)
    (hdecl : ∀ (k : COKey) (d : PyVal),
      lookupKey (keyName k) opts = some d → declaredOK k d = true) :
    ∀ k, fieldOutcome opts k = .ok (loopResult opts k) := by
  intro k
  rcases hl : lookupKey (keyName k) opts with _ | d
  · simp [fieldOutcome, loopResult, hl]
  · simp only [fieldOutcome, loopResult, hl]
    exact declaredOK_checkedValue k d (hdecl k d hl)

lemma lookupKey_unknown_none (s : String) (l : RawDict)
    (h : ∀ p ∈ l, p.1 ≠ s) : lookupKey s l = none := by
  induction l with
  | nil => rfl
  | cons p ps ih =>
    simp only [lookupKey]
    rw [if_neg (h p (by simp))]
    exact ih (fun q hq => h q (by simp [hq]))

lemma lookupKey_append_of_none (s : String) (l1 l2 : RawDict)
    (h2 : lookupKey s l2 = none) :
    lookupKey s (l1 ++ l2) = lookupKey s l1 := by
  induction l1 with
  | nil => simp only [List.nil_append, lookupKey]; exact h2
  | cons p ps ih =>
    simp only [List.cons_append, lookupKey]
    by_cases hp : p.1 = s
    · rw [if_pos hp, if_pos hp]
    · rw [if_neg hp, if_neg hp]
      exact ih

/-- The validation loop only consults the known keys of the mapping. -/
lemma validateLoop_congr (o1 o2 : RawDict)
    (h : ∀ k : COKey, lookupKey (keyName k) o1 = lookupKey (keyName k) o2) :
    validateLoop o1 = validateLoop o2 := by
  rw [validateLoop, validateLoop]
  have hfold : ∀ (ks : List COKey) (a : ContainerOpts),
      ks.foldlM (validateStep o1) a = ks.foldlM (validateStep o2) a := by
    intro ks
    induction ks with
    | nil => intro a; rfl
    | cons k ks ih =>
      intro a
      rw [List.foldlM_cons, List.foldlM_cons]
      have hst : validateStep o1 a k = validateStep o2 a k := by
        rw [validateStep, validateStep, h k]
      rw [hst]
      rcases h2 : validateStep o2 a k with e | b
      · rw [exbind_err, exbind_err]
      · rw [exbind_ok, exbind_ok]
        exact ih b
  exact hfold allKeys defaultOpts

/-- The fixed point the first round-trip produces from a minimal container
definition: optional string fields that were absent read back as `None`. -/
def postRound : ContainerOpts := fun k =>
  match k with
  | COKey.image => .vstr "ri"
  | COKey.name => .vstr "rn"
  | COKey.group | COKey.image_password | COKey.image_username
  | COKey.image_build_path | COKey.net | COKey.network
  | COKey.restart | COKey.tag => .vnone
  | k => defaultOpts k

/-- Claim C3 counterexample: a freshly validated minimal record holds the
empty string in the absent `group` field; after one write/read round-trip
the field reads back as `None`, so the round-tripped record is not
field-for-field equal to the original. -/
theorem claim_C3_counterexample :
    Except.map (fun r => r COKey.group)
      (validate [("image", PyVal.vstr "i"), ("name", PyVal.vstr "n")]) =
      .ok (.vstr "") ∧
    Except.map (fun r => r COKey.group)
      ((validate [("image", PyVal.vstr "i"),
        ("name", PyVal.vstr "n")]).bind roundTrip) = .ok .vnone ∧
    PyVal.vstr "" ≠ PyVal.vnone :=
  ⟨rfl, rfl, fun h => PyVal.noConfusion h⟩

/-- Claim C3 (amended): the write/read round-trip is idempotent from the
first application on — every record produced by a round-trip is reproduced
exactly by a further round-trip.  (A freshly validated record with an absent
optional string field is changed by the first round-trip, which turns the
empty-string default into `None`; see the counterexample.) -/
theorem claim_C3_roundtrip_idempotent (r0 r1 : ContainerOpts)
    (h : roundTrip r0 = .ok r1) : roundTrip r1 = .ok r1 := by
  rw [roundTrip, validate_ok_iff] at h
  obtain ⟨hl, hi, hn⟩ := h
  rw [validateLoop_ok_iff] at hl
  rw [roundTrip, validate_ok_iff]
  refine ⟨?_, hi, hn⟩
  rw [validateLoop_ok_iff]
  intro k
  have hk := hl k
  simp only [fieldOutcome, lookup_norm_toDict] at hk ⊢
  refine checkedValue_stable k (normField k (r0 k)) (r1 k) hk ?_
  rintro (rfl | rfl) hnone
  · rw [hnone] at hi
    simp [pyFalsy] at hi
  · rw [hnone] at hn
    simp [pyFalsy] at hn

/-- Witness for the amended C3 theorem: one concrete round-trip and its
reproduction. -/
theorem claim_C3_roundtrip_idempotent_witness :
    roundTrip (fun k => match k with
      | COKey.image => PyVal.vstr "ri"
      | COKey.name => PyVal.vstr "rn"
      | k => defaultOpts k) = .ok postRound ∧
    roundTrip postRound = .ok postRound := by
  have h : roundTrip (fun k => match k with
      | COKey.image => PyVal.vstr "ri"
      | COKey.name => PyVal.vstr "rn"
      | k => defaultOpts k) = .ok postRound := by
    rw [roundTrip, validate_ok_iff]
    exact ⟨(validateLoop_ok_iff _ _).mpr (fun k => by cases k <;> rfl),
      rfl, rfl⟩
  exact ⟨h, claim_C3_roundtrip_idempotent _ postRound h⟩

/-- Claim C4: a raw mapping whose present known fields have the declared
types and which carries non-empty `image` and `name` validates successfully
with `image`/`name` preserved; and unknown keys are ignored — appending
entries with unknown keys leaves the validation outcome unchanged (and the
result record has no place for them). -/
theorem claim_C4_valid_accept_unknown_ignored :
    (∀ (opts : RawDict) (i n : String),
      i ≠ "" → n ≠ "" →
      lookupKey "image" opts = some (.vstr i) →
      lookupKey "name" opts = some (.vstr n) →
      (∀ (k : COKey) (d : PyVal),
        lookupKey (keyName k) opts = some d → declaredOK k d = true) →
      ∃ r, validate opts = .ok r ∧
        r COKey.image = .vstr i ∧ r COKey.name = .vstr n) ∧
    (∀ (opts extra : RawDict),
      (∀ p ∈ extra, ∀ k : COKey, p.1 ≠ keyName k) →
      validate (opts ++ extra) = validate opts) := by
  constructor
  · intro opts i n hi hn himg hnam hdecl
    have hw := loopResult_fieldOutcome opts hdecl
    have himg' : loopResult opts COKey.image = .vstr i := by
      simp [loopResult, keyName, himg, noneIfEmptyStr, preConv,
        pyIsStrOrBytes, makestr, hi]
    have hnam' : loopResult opts COKey.name = .vstr n := by
      simp [loopResult, keyName, hnam, noneIfEmptyStr, preConv,
        pyIsStrOrBytes, makestr, hn]
    refine ⟨loopResult opts, ?_, himg', hnam'⟩
    rw [validate_ok_iff]
    refine ⟨(validateLoop_ok_iff _ _).mpr hw, ?_, ?_⟩
    · rw [himg']
      simp [pyFalsy, hi]
    · rw [hnam']
      simp [pyFalsy, hn]
  · intro opts extra hex
    have hlk : ∀ k : COKey,
        lookupKey (keyName k) (opts ++ extra) = lookupKey (keyName k) opts :=
      fun k => lookupKey_append_of_none _ _ _
        (lookupKey_unknown_none _ _ (fun p hp => hex p hp k))
    unfold validate
    rw [validateLoop_congr (opts ++ extra) opts hlk]

/-- Witness for C4: a minimal valid mapping, and the same mapping extended
with an unknown key. -/
theorem claim_C4_valid_accept_unknown_ignored_witness :
    (∃ r, validate [("image", PyVal.vstr "im"), ("name", PyVal.vstr "nm")] =
        .ok r ∧ r COKey.image = .vstr "im" ∧ r COKey.name = .vstr "nm") ∧
    validate ([("image", PyVal.vstr "im"), ("name", PyVal.vstr "nm")] ++
        [("extra_key", PyVal.vint 3)]) =
      validate [("image", PyVal.vstr "im"), ("name", PyVal.vstr "nm")] := by
  constructor
  · refine claim_C4_valid_accept_unknown_ignored.1 _ "im" "nm"
      (by decide) (by decide) rfl rfl ?_
    intro k d h
    cases k <;>
      first
      | exact Option.noConfusion
          (show (Option.none : Option PyVal) = some d from h)
      | (rw [← Option.some.inj
            (show some (PyVal.vstr "im") = some d from h)]; rfl)
      | (rw [← Option.some.inj
            (show some (PyVal.vstr "nm") = some d from h)]; rfl)
  · refine claim_C4_valid_accept_unknown_ignored.2 _ _ ?_
    intro p hp k
    rw [List.mem_singleton] at hp
    subst hp
    cases k <;> simp [keyName]

/-- Claim C5 counterexample: the mapping `{cap_add: [0]}` is missing both
`image` and `name`, yet validation fails with the list-element type error
for `cap_add` — a ConfigError whose message does not name the missing
field. -/
theorem claim_C5_counterexample :
    validate [("cap_add", PyVal.vlist [PyVal.vint 0])] =
      .error (.configError (fmtTEList 0 "cap_add" "int")) ∧
    fmtTEList 0 "cap_add" "int" ≠ msgNoImage ∧
    fmtTEList 0 "cap_add" "int" ≠ msgNoName := by
  refine ⟨rfl, by decide, by decide⟩

/-- Claim C5 (amended): for a raw mapping whose present known fields
type-check, a missing or empty `image` fails validation with the ConfigError
naming `image`, and (when `image` is present and non-empty) a missing or
empty `name` fails with the ConfigError naming `name`.  A type error in
another field can fire first and names that field instead. -/
theorem claim_C5_missing_image_name (opts : RawDict)
    (hdecl : ∀ (k : COKey) (d : PyVal),
      lookupKey (keyName k) opts = some d → declaredOK k d = true) :
    ((lookupKey "image" opts = none ∨
        lookupKey "image" opts = some (.vstr "")) →
      validate opts = .error (.configError msgNoImage)) ∧
    ((∃ i, i ≠ "" ∧ lookupKey "image" opts = some (.vstr i)) →
      (lookupKey "name" opts = none ∨
        lookupKey "name" opts = some (.vstr "")) →
      validate opts = .error (.configError msgNoName)) := by
  have hloop : validateLoop opts = .ok (loopResult opts) :=
    (validateLoop_ok_iff _ _).mpr (loopResult_fieldOutcome opts hdecl)
  constructor
  · intro himg
    have himgv : pyFalsy (loopResult opts COKey.image) = true := by
      rcases himg with h | h <;>
        simp [loopResult, keyName, h, pyFalsy, noneIfEmptyStr, preConv,
          pyIsStrOrBytes, makestr, defaultOpts]
    simp only [validate, hloop]
    rw [if_pos himgv]
  · rintro ⟨i, hi, himg⟩ hname
    have himgv : pyFalsy (loopResult opts COKey.image) = false := by
      simp [loopResult, keyName, himg, noneIfEmptyStr, preConv,
        pyIsStrOrBytes, makestr, hi, pyFalsy]
    have hnamev : pyFalsy (loopResult opts COKey.name) = true := by
      rcases hname with h | h <;>
        simp [loopResult, keyName, h, pyFalsy, noneIfEmptyStr, preConv,
          pyIsStrOrBytes, makestr, defaultOpts]
    simp only [validate, hloop]
    rw [if_neg (by simp [himgv]), if_pos hnamev]

/-- Witness for the amended C5 theorem at the empty mapping. -/
theorem claim_C5_missing_image_name_witness :
    validate [] = .error (.configError msgNoImage) :=
  (claim_C5_missing_image_name []
    (fun _ d h => Option.noConfusion
      (show (Option.none : Option PyVal) = some d from h))).1 (Or.inl rfl)

lemma defaultOpts_not_bytes (k : COKey) (s : String) :
    defaultOpts k ≠ .vbytes s := by
  cases k <;> simp [defaultOpts]

lemma noneIfEmptyStr_preConv_not_bytes (d : PyVal) (s : String) :
    noneIfEmptyStr (preConv d) ≠ .vbytes s := by
  rcases d with t | t | b | n | xs | _ <;>
    simp [preConv, pyIsStrOrBytes, makestr, noneIfEmptyStr] <;>
    split_ifs <;> simp

/-- Claim C10: validation handles bytes asymmetrically — a validated record
never holds a bytes scalar in any field (top-level bytes are converted to
str before the type check), while a bytes element inside a sequence field
passes the element check and is stored unconverted. -/
theorem claim_C10_bytes_asymmetry :
    (∀ (opts : RawDict) (r : ContainerOpts) (k : COKey) (s : String),
      validate opts = .ok r → r k ≠ .vbytes s) ∧
    Except.map (fun r => r COKey.image)
      (validate [("image", .vbytes "i"), ("name", .vstr "n")]) =
      .ok (.vstr "i") ∧
    Except.map (fun r => r COKey.cap_add)
      (validate [("image", .vstr "i"), ("name", .vstr "n"),
        ("cap_add", .vlist [.vbytes "x"])]) =
      .ok (.vlist [.vbytes "x"]) := by
  refine ⟨?_, rfl, rfl⟩
  intro opts r k s hv
  rw [validate_ok_iff] at hv
  have hf := (validateLoop_ok_iff _ _).mp hv.1 k
  rcases hl : lookupKey (keyName k) opts with _ | d
  · simp only [fieldOutcome, hl] at hf
    rw [← Except.ok.inj hf]
    exact defaultOpts_not_bytes k s
  · simp only [fieldOutcome, hl] at hf
    rw [checkedValue_ok_inv hf]
    exact noneIfEmptyStr_preConv_not_bytes d s

/-- Witness for C10 at a minimal validated record: no field holds the bytes
value in question. -/
theorem claim_C10_bytes_asymmetry_witness :
    validate [("image", PyVal.vstr "wa"), ("name", PyVal.vstr "wb")] =
      .ok (fun k => match k with
        | COKey.image => PyVal.vstr "wa"
        | COKey.name => PyVal.vstr "wb"
        | k => defaultOpts k) ∧
    (fun k => match k with
        | COKey.image => PyVal.vstr "wa"
        | COKey.name => PyVal.vstr "wb"
        | k => defaultOpts k) COKey.group ≠ PyVal.vbytes "zz" := by
  have hv : validate [("image", PyVal.vstr "wa"), ("name", PyVal.vstr "wb")] =
      .ok (fun k => match k with
        | COKey.image => PyVal.vstr "wa"
        | COKey.name => PyVal.vstr "wb"
        | k => defaultOpts k) := by
    rw [validate_ok_iff]
    exact ⟨(validateLoop_ok_iff _ _).mpr (fun k => by cases k <;> rfl),
      rfl, rfl⟩
  exact ⟨hv, claim_C10_bytes_asymmetry.1 _ _ COKey.group "zz" hv⟩

/-- Witness for C9 at group name "g" and an empty group registry. -/
theorem claim_C9_group_restart_noop_witness :
    do_group ⟨none, none, none, some "g", none, none, none, false⟩ =
        .errNoAction ∧
    cmdOps [] (do_group ⟨none, none, none, some "g", none, none, none,
        false⟩) = [] :=
  claim_C9_group_restart_noop.2 "g" []
